import Mathlib

/-!
Verification of the cms-backend transactional persistence and query layer.

This file shallowly embeds the data model and the controller operations of
the repository (Page, Post and Media controllers, the Post to Media
many-to-many relationship loader, and the transactional write skeleton)
and proves the spec claims about them.

Conventions of the embedding:
- machine integers become `Nat`; timestamps become a logical clock `Nat`
  passed explicitly as `now` (the storage layer stamps `created_at` and
  `updated_at` from it, per the gorm autoCreateTime and autoUpdateTime
  tags on the models);
- the database is an explicit record of tables (lists of rows) plus the
  identifier sequences of the storage engine;
- fallible handlers return `Except ApiError` together with the resulting
  database and the transaction events they issued;
- the JSON boundary (routing, decoding) is out of scope per the spec;
  payload records carry exactly the fields the handlers read.
-/

namespace Cms

/-- Substring search on character lists: `listContainsSub sub l` is true
when `sub` occurs contiguously inside `l`. This is the row semantics of
the SQL predicate `col ILIKE '%pat%'` used by the list handlers, applied
after lowercasing both sides. -/
def listContainsSub (sub : List Char) : List Char → Bool
  | [] => sub.isEmpty
  | c :: cs => sub.isPrefixOf (c :: cs) || listContainsSub sub cs

/-- Lowercased character list of a string (per-character lowercasing, the
case folding ILIKE applies; none of the LIKE metacharacters is affected
by lowercasing). -/
def lowerChars (s : String) : List Char :=
  s.data.map Char.toLower

/-- Token of a LIKE pattern after lexing: an unescaped `%` (matches any
character sequence), an unescaped `_` (matches exactly one character), or
a literal character (ordinary, or escaped by a backslash). -/
inductive LikeTok where
  | percent
  | anyChar
  | lit : Char → LikeTok
deriving Repr, DecidableEq

/-- Lexer of a LIKE pattern: a backslash escapes the following character
into a literal, unescaped `%` and `_` are wildcards, everything else is a
literal. A lone trailing backslash is a pattern error in the engine; it
cannot arise from the handlers (their patterns end with the appended `%`,
which a trailing backslash in the filter value escapes instead) and is
modelled as a literal backslash. -/
def likeLexer : List Char → List LikeTok
  | [] => []
  | c :: rest =>
      if c == '\\' then
        match rest with
        | [] => [.lit '\\']
        | d :: rest2 => .lit d :: likeLexer rest2
      else if c == '%' then .percent :: likeLexer rest
      else if c == '_' then .anyChar :: likeLexer rest
      else .lit c :: likeLexer rest

/-- Prepend a token to the first segment of a segment list. -/
def consHead (t : LikeTok) : List (List LikeTok) → List (List LikeTok)
  | [] => [[t]]
  | seg :: segs => (t :: seg) :: segs

/-- Split a lexed pattern into the maximal percent-free segments between
its `%` wildcards; always returns at least one segment. -/
def splitSegs : List LikeTok → List (List LikeTok)
  | [] => [[]]
  | .percent :: rest => [] :: splitSegs rest
  | .anyChar :: rest => consHead .anyChar (splitSegs rest)
  | .lit c :: rest => consHead (.lit c) (splitSegs rest)

/-- Match a percent-free segment against a prefix of the text, consuming
it: `anyChar` consumes any one character, a literal must be equal; returns
the unconsumed remainder on success. (A `percent` cannot occur inside a
segment; the arm is for totality and never matches anything.) -/
def segPrefix : List LikeTok → List Char → Option (List Char)
  | [], s => some s
  | .anyChar :: ps, s =>
      match s with
      | [] => none
      | _ :: cs => segPrefix ps cs
  | .lit pc :: ps, s =>
      match s with
      | [] => none
      | c :: cs => if pc == c then segPrefix ps cs else none
  | .percent :: _, _ => none

/-- Earliest occurrence of a segment in the text: try every start
position left to right and return the remainder after the match. -/
def findSegRem (seg : List LikeTok) : List Char → Option (List Char)
  | [] => segPrefix seg []
  | c :: cs =>
      match segPrefix seg (c :: cs) with
      | some rem => some rem
      | none => findSegRem seg cs

/-- Whether a segment matches the whole text exactly. -/
def segExact (seg : List LikeTok) (s : List Char) : Bool :=
  match segPrefix seg s with
  | some [] => true
  | _ => false

/-- Whether a segment matches some suffix of the text exactly. -/
def segSuffix (seg : List LikeTok) : List Char → Bool
  | [] => segExact seg []
  | c :: cs => segExact seg (c :: cs) || segSuffix seg cs

/-- Match the remaining segments of a pattern that contains at least one
`%`: middle segments are placed greedily at their earliest occurrence
(correct for LIKE because everything that follows only needs a suffix of
the remainder), and the final segment must match a suffix of what is
left. -/
def matchMidLast : List (List LikeTok) → List Char → Bool
  | [], s => s.isEmpty
  | [lastSeg], s => segSuffix lastSeg s
  | seg :: segs, s =>
      match findSegRem seg s with
      | none => false
      | some rem => matchMidLast segs rem

/-- LIKE pattern matching: a pattern without `%` must match the whole
text; otherwise the first segment is anchored at the start, the last at
the end, and the middle segments occur in order in between. -/
def likeMatch (pat : List LikeTok) (s : List Char) : Bool :=
  match splitSegs pat with
  | [] => s.isEmpty
  | [seg] => segExact seg s
  | seg :: segs =>
      match segPrefix seg s with
      | none => false
      | some rem => matchMidLast segs rem

/-- Case-insensitive LIKE match: semantics of `title ILIKE '%'+v+'%'` as
built by GetPosts and GetPages from the raw filter value `v` — both sides
are lowercased and `%`, `_` and backslash inside `v` keep their LIKE
wildcard/escape meaning ('%' lowercases to itself, so lowercasing the
built pattern prepends and appends a literal-level '%' around the
lowercased value). -/
def ilikeContains (s pat : String) : Bool :=
  likeMatch (likeLexer (('%' :: lowerChars pat) ++ ['%'])) (lowerChars s)

/-- Whether a character is a LIKE metacharacter of the pattern language:
wildcard `%` or `_`, or the escape backslash. -/
def isMeta (c : Char) : Bool :=
  c == '%' || c == '_' || c == '\\'

/-- Page model (models/page.go): id, title, content, timestamps. The model
has no author field. -/
structure Page where
  id : Nat
  title : String
  content : String
  createdAt : Nat
  updatedAt : Nat
deriving Repr, DecidableEq

/-- Media model. The model file itself is not among the provided sources;
the field list (id, url, type, timestamps) is modelled from the spec data
model and corroborated by every use in the controllers and tests. -/
structure Media where
  id : Nat
  url : String
  type : String
  createdAt : Nat
  updatedAt : Nat
deriving Repr, DecidableEq

/-- A stored row of the posts table (models/post.go without the Media
slice: the many-to-many lives in the post_media join table). -/
structure PostRow where
  id : Nat
  title : String
  content : String
  author : String
  createdAt : Nat
  updatedAt : Nat
deriving Repr, DecidableEq

/-- The in-memory models.Post as returned by the read handlers: a row plus
the Media slice. `none` models a nil slice (JSON null); `some` a concrete
slice (JSON array). -/
structure Post where
  id : Nat
  title : String
  content : String
  author : String
  createdAt : Nat
  updatedAt : Nat
  media : Option (List Media)
deriving Repr, DecidableEq

/-- The stored state: the three entity tables, the post_media join table
(pairs of post id and media id), and the identifier sequences the storage
engine draws from. -/
structure DB where
  pages : List Page
  posts : List PostRow
  media : List Media
  postMedia : List (Nat × Nat)
  pageSeq : Nat
  postSeq : Nat
  mediaSeq : Nat
deriving Repr, DecidableEq

/-- Error taxonomy of the handlers: 400 validation, 404 not found,
500 storage. -/
inductive ApiError where
  | validation : String → ApiError
  | notFound : String → ApiError
  | storage : String → ApiError
deriving Repr, DecidableEq

/-- Transaction events a handler issues on the shared connection. -/
inductive TxEvent where
  | beginTx
  | commitTx
  | rollbackTx
deriving Repr, DecidableEq

/-- Outcome of a write handler: the response, the resulting stored state,
and the transaction events issued (in order). -/
structure OpResult (α : Type) where
  res : Except ApiError α
  db : DB
  tx : List TxEvent

/-- True exactly on a validation error response. -/
def isValidationRes {α : Type} : Except ApiError α → Bool
  | .error (.validation _) => true
  | _ => false

/-- JSON payload for Page create and update: the handlers read only title
and content. -/
structure PagePayload where
  title : String
  content : String
deriving Repr, DecidableEq

/-- JSON payload for Post create and update: title, content, author and
the optional list of Media references (each reference carries the fields
the JSON supplied; a bare reference has only its id, the string fields
decode to ""). -/
structure PostPayload where
  title : String
  content : String
  author : String
  media : List Media
deriving Repr, DecidableEq

/-- JSON payload for Media create: url and type. -/
structure MediaPayload where
  url : String
  type : String
deriving Repr, DecidableEq

/-- CreatePage (page controller): validate required fields before any
transaction, then begin, insert (engine assigns id and both timestamps),
commit, and return the created row. -/
def CreatePage (db : DB) (now : Nat) (p : PagePayload) : OpResult Page :=
  if p.title == "" then
    { res := .error (.validation "Title is required"), db := db, tx := [] }
  else if p.content == "" then
    { res := .error (.validation "Content is required"), db := db, tx := [] }
  else
    let pg : Page :=
      { id := db.pageSeq + 1, title := p.title, content := p.content,
        createdAt := now, updatedAt := now }
    { res := .ok pg,
      db := { db with pages := db.pages ++ [pg], pageSeq := db.pageSeq + 1 },
      tx := [.beginTx, .commitTx] }

/-- Merge step of UpdatePage: overwrite each mutable field only when the
incoming value is non-empty; the subsequent save stamps updated_at with
the current time (autoUpdateTime). -/
def mergePage (existingPage : Page) (p : PagePayload) (now : Nat) : Page :=
  { existingPage with
    title := if p.title == "" then existingPage.title else p.title,
    content := if p.content == "" then existingPage.content else p.content,
    updatedAt := now }

/-- UpdatePage: look up the row first (404 with no transaction when
absent); then ShouldBindJSON decodes the payload into the Page model,
whose title and content carry binding required tags, so a payload in
which either is omitted or empty is rejected with a 400 before any merge
or transaction; then merge, begin, save the full merged row, commit, and
return it. Because the binding step guarantees non-empty title and
content, the retain branches of the merge are reachable only for fields
without a binding tag. -/
def UpdatePage (db : DB) (id : Nat) (p : PagePayload) (now : Nat) : OpResult Page :=
  match db.pages.find? (fun q => q.id == id) with
  | none => { res := .error (.notFound "Page not found"), db := db, tx := [] }
  | some existingPage =>
      if p.title == "" || p.content == "" then
        { res := .error (.validation "binding for required fields failed"),
          db := db, tx := [] }
      else
        { res := .ok (mergePage existingPage p now),
          db := { db with
            pages := db.pages.map (fun q =>
              if q.id == existingPage.id then mergePage existingPage p now else q) },
          tx := [.beginTx, .commitTx] }

/-- DeletePage: look up the row first (404 with no transaction when
absent), then begin, delete by id, commit. -/
def DeletePage (db : DB) (id : Nat) : OpResult String :=
  match db.pages.find? (fun q => q.id == id) with
  | none => { res := .error (.notFound "Page not found"), db := db, tx := [] }
  | some pg =>
      { res := .ok "Page deleted successfully",
        db := { db with
          pages := db.pages.filter (fun q => if q.id == pg.id then false else true) },
        tx := [.beginTx, .commitTx] }

/-- Columns of the pages table as migrated from the Page model. There is
no author column. -/
def pageColumns : List String := ["id", "title", "content", "created_at", "updated_at"]

/-- One WHERE clause of a pages query: the referenced column name and the
row predicate it denotes. For a column the table does not have there is no
row predicate; the engine rejects the query, so the stored function is
irrelevant (kept as the constant false). -/
structure PageClause where
  column : String
  pred : Page → Bool

/-- The WHERE clauses GetPages builds from its query parameters: a
case-insensitive title substring clause when title is non-empty, and an
author equality clause when author is non-empty, even though the pages
table has no author column. -/
def buildPagesClauses (title author : String) : List PageClause :=
  (if title == "" then [] else
    [{ column := "title", pred := fun p => ilikeContains p.title title }]) ++
  (if author == "" then [] else
    [{ column := "author", pred := fun _ => false }])

/-- Execute a pages query: the engine fails the whole query with a storage
error when a clause references a column the table does not have, and
otherwise returns the rows satisfying every clause. -/
def runPagesQuery (db : DB) (cs : List PageClause) : Except ApiError (List Page) :=
  if cs.all (fun c => pageColumns.contains c.column) then
    .ok (db.pages.filter (fun p => cs.all (fun c => c.pred p)))
  else
    .error (.storage "undefined column in WHERE clause")

/-- GetPages: build the clauses from the title and author query parameters
and run them against the pages table. -/
def GetPages (db : DB) (title author : String) : Except ApiError (List Page) :=
  runPagesQuery db (buildPagesClauses title author)

/-- Association rows of one post id resolved against the media table: the
per-parent semantics of preloading the Media relationship (one join-table
query keyed by the post id, then the media rows for the collected media
ids; a dangling join row whose media id has no row resolves to nothing). -/
def mediaOf (db : DB) (pid : Nat) : List Media :=
  (db.postMedia.filter (fun pm => pm.fst == pid)).filterMap
    (fun pm => db.media.find? (fun m => m.id == pm.snd))

/-- Assemble the in-memory Post from a stored row and its loaded media
slice; the slice is concrete (`some`), never nil. -/
def loadPost (r : PostRow) (ms : List Media) : Post :=
  { id := r.id, title := r.title, content := r.content, author := r.author,
    createdAt := r.createdAt, updatedAt := r.updatedAt, media := some ms }

/-- Projection back from an in-memory Post to its stored row. -/
def postRowOf (p : Post) : PostRow :=
  { id := p.id, title := p.title, content := p.content, author := p.author,
    createdAt := p.createdAt, updatedAt := p.updatedAt }

/-- Result of a list query over posts: the loaded posts and how many
join-table (association) queries were issued. -/
structure ListResult where
  posts : List Post
  assocLookups : Nat

/-- The single join-table query of a batch preload: an IN membership
predicate over all parent post ids. -/
def batchPairs (db : DB) (ids : List Nat) : List (Nat × Nat) :=
  db.postMedia.filter (fun pm => ids.contains pm.fst)

/-- The media rows fetched for the batch: one media query keyed by the
media ids collected from the join rows. -/
def batchMediaRows (db : DB) (mids : List Nat) : List Media :=
  db.media.filter (fun m => mids.contains m.id)

/-- Distribution of the batch results back to one owning post id: the join
rows of that id, each resolved in the fetched media rows. -/
def batchAssemble (db : DB) (ids : List Nat) (pid : Nat) : List Media :=
  ((batchPairs db ids).filter (fun pm => pm.fst == pid)).filterMap
    (fun pm => (batchMediaRows db ((batchPairs db ids).map (fun q => q.snd))).find?
      (fun m => m.id == pm.snd))

/-- Batch preload of the Media relationship (Preload on Find): with no
parent rows no association query is issued; otherwise one join-table query
with an IN membership predicate over all parent ids runs, the media rows
for the collected media ids are fetched, every parent slice starts empty,
and the results are distributed back to the owning rows. -/
def preloadMedia (db : DB) (rows : List PostRow) : ListResult :=
  if rows.isEmpty then { posts := [], assocLookups := 0 }
  else
    { posts := rows.map (fun r =>
        loadPost r (batchAssemble db (rows.map (fun q => q.id)) r.id)),
      assocLookups := 1 }

/-- The WHERE clauses GetPosts builds: a case-insensitive title substring
clause when title is non-empty, and an author equality clause when author
is non-empty; both columns exist on the posts table. -/
def postsQueryWhere (title author : String) : List (PostRow → Bool) :=
  (if title == "" then [] else [fun p => ilikeContains p.title title]) ++
  (if author == "" then [] else [fun p => p.author == author])

/-- GetPosts: filter the posts table by the clauses built from the query
parameters, then preload the Media relationship for the batch. -/
def GetPosts (db : DB) (title author : String) : ListResult :=
  preloadMedia db (db.posts.filter (fun p => (postsQueryWhere title author).all (fun c => c p)))

/-- GetPost: look up the row by id (404 when absent), then preload its
Media relationship (one join-table query keyed by this post id). -/
def GetPost (db : DB) (id : Nat) : Except ApiError Post :=
  match db.posts.find? (fun r => r.id == id) with
  | none => .error (.notFound "Post not found")
  | some r => .ok (loadPost r (mediaOf db r.id))

/-- Upsert of one referenced Media row during post creation: the engine
issues INSERT with ON CONFLICT DO NOTHING on the id, so an existing row is
left untouched and a reference whose id has no row inserts the reference
as given (stamped with the current time). -/
def upsertMediaRef (now : Nat) (tbl : List Media) (m : Media) : List Media :=
  if (tbl.find? (fun x => x.id == m.id)).isSome then tbl
  else tbl ++ [{ m with createdAt := now, updatedAt := now }]

/-- CreatePost: validate required fields before any transaction, then
begin, insert the row (engine assigns id and timestamps), save the Media
associations carried by the payload (upsert each referenced row, then one
join row per reference), and commit. References are modelled as carrying
explicit identifiers; a reference with id 0, which the engine would insert
as a fresh Media row with a generated id, does not occur in the claims. -/
def CreatePost (db : DB) (now : Nat) (p : PostPayload) : OpResult PostRow :=
  if p.title == "" then
    { res := .error (.validation "Title is required"), db := db, tx := [] }
  else if p.content == "" then
    { res := .error (.validation "Content is required"), db := db, tx := [] }
  else
    let row : PostRow :=
      { id := db.postSeq + 1, title := p.title, content := p.content,
        author := p.author, createdAt := now, updatedAt := now }
    { res := .ok row,
      db := { db with
        posts := db.posts ++ [row],
        postSeq := db.postSeq + 1,
        media := p.media.foldl (upsertMediaRef now) db.media,
        postMedia := db.postMedia ++ p.media.map (fun m => (row.id, m.id)) },
      tx := [.beginTx, .commitTx] }

/-- UpdatePost: look up the row first (404 with no transaction when
absent); then ShouldBindJSON decodes the payload into the Post model,
whose title and content carry binding required tags, so a payload in
which either is omitted or empty is rejected with a 400 before any merge
or transaction (author has no binding tag and keeps its partial-patch
merge); then merge, begin, save the full row (autoUpdateTime refreshes
updated_at), commit, and return the merged row. The payload Media slice
is not merged and the fetched row carries a nil slice, so the save
touches no associations. `mergePost` is the merge step; `UpdatePost` the
handler. -/
def mergePost (existingPost : PostRow) (p : PostPayload) (now : Nat) : PostRow :=
  { existingPost with
    title := if p.title == "" then existingPost.title else p.title,
    content := if p.content == "" then existingPost.content else p.content,
    author := if p.author == "" then existingPost.author else p.author,
    updatedAt := now }

def UpdatePost (db : DB) (id : Nat) (p : PostPayload) (now : Nat) : OpResult PostRow :=
  match db.posts.find? (fun r => r.id == id) with
  | none => { res := .error (.notFound "Post not found"), db := db, tx := [] }
  | some existingPost =>
      if p.title == "" || p.content == "" then
        { res := .error (.validation "binding for required fields failed"),
          db := db, tx := [] }
      else
        { res := .ok (mergePost existingPost p now),
          db := { db with
            posts := db.posts.map (fun r =>
              if r.id == existingPost.id then mergePost existingPost p now else r) },
          tx := [.beginTx, .commitTx] }

/-- DeletePost: look up the row first (404 with no transaction when
absent), then begin, delete the row, commit. A plain delete does not touch
the join table, so association rows of the deleted post remain. -/
def DeletePost (db : DB) (id : Nat) : OpResult String :=
  match db.posts.find? (fun r => r.id == id) with
  | none => { res := .error (.notFound "Post not found"), db := db, tx := [] }
  | some r =>
      { res := .ok "Post deleted successfully",
        db := { db with
          posts := db.posts.filter (fun q => if q.id == r.id then false else true) },
        tx := [.beginTx, .commitTx] }

/-- CreateMedia: validate required fields before any transaction, then
begin, insert, commit. -/
def CreateMedia (db : DB) (now : Nat) (p : MediaPayload) : OpResult Media :=
  if p.url == "" then
    { res := .error (.validation "URL is required"), db := db, tx := [] }
  else if p.type == "" then
    { res := .error (.validation "Type is required"), db := db, tx := [] }
  else
    let m : Media :=
      { id := db.mediaSeq + 1, url := p.url, type := p.type,
        createdAt := now, updatedAt := now }
    { res := .ok m,
      db := { db with media := db.media ++ [m], mediaSeq := db.mediaSeq + 1 },
      tx := [.beginTx, .commitTx] }

/-- DeleteMedia: look up the row first (404 with no transaction when
absent), then begin, delete the row, commit. Join rows referencing the
deleted media are not cleaned up (the known referential gap). -/
def DeleteMedia (db : DB) (id : Nat) : OpResult String :=
  match db.media.find? (fun m => m.id == id) with
  | none => { res := .error (.notFound "Media not found"), db := db, tx := [] }
  | some m =>
      { res := .ok "Media deleted successfully",
        db := { db with
          media := db.media.filter (fun x => if x.id == m.id then false else true) },
        tx := [.beginTx, .commitTx] }

/-- Outcome of the write step inside the transactional block: success, a
storage error (the explicit error branch), or an unexpected internal fault
(panic) caught by the deferred recover. -/
inductive WriteOutcome where
  | ok
  | storageErr
  | fault
deriving Repr, DecidableEq

/-- Outcome of the commit call. -/
inductive CommitOutcome where
  | ok
  | storageErr
deriving Repr, DecidableEq

/-- Observable actions of one run of the transactional block. -/
structure TxRun where
  rollbackIssued : Bool
  commitIssued : Bool
  errorReturned : Bool
  failureExit : Bool
deriving Repr, DecidableEq

/-- The transactional skeleton shared verbatim by all eight write handlers
(create, update and delete of each entity): `tx := db.Begin()`; a deferred
recover that issues `tx.Rollback()` on a panic; the write, whose error
branch issues `tx.Rollback()` and returns a 500; `tx.Commit()`, whose
error branch returns a 500 without issuing a rollback. `failureExit` marks
every run that did not commit cleanly. -/
def runTxBlock : WriteOutcome → CommitOutcome → TxRun
  | .storageErr, _ =>
      { rollbackIssued := true, commitIssued := false,
        errorReturned := true, failureExit := true }
  | .fault, _ =>
      { rollbackIssued := true, commitIssued := false,
        errorReturned := false, failureExit := true }
  | .ok, .ok =>
      { rollbackIssued := false, commitIssued := true,
        errorReturned := false, failureExit := false }
  | .ok, .storageErr =>
      { rollbackIssued := false, commitIssued := true,
        errorReturned := true, failureExit := true }

/-! ### Supporting lemmas -/

theorem listContainsSub_iff (sub l : List Char) :
    listContainsSub sub l = true ↔ sub <:+: l := by
  induction l with
  | nil =>
      simp [listContainsSub, List.isEmpty_iff, List.infix_nil]
  | cons c cs ih =>
      simp [listContainsSub, Bool.or_eq_true, ih, List.isPrefixOf_iff_prefix,
        List.infix_cons_iff]

theorem likeLexer_clean_append (l : List Char) (h : ∀ c ∈ l, isMeta c = false) :
    likeLexer (l ++ ['%']) = l.map LikeTok.lit ++ [LikeTok.percent] := by
  induction l with
  | nil => rfl
  | cons c rest ih =>
      have hc := h c (List.mem_cons_self c rest)
      rw [isMeta, Bool.or_eq_false_iff, Bool.or_eq_false_iff] at hc
      obtain ⟨⟨h2, h3⟩, h1⟩ := hc
      rw [List.cons_append, List.map_cons, List.cons_append, likeLexer.eq_def]
      simp only [h1, h2, h3, Bool.false_eq_true, if_false]
      rw [ih (fun x hx => h x (List.mem_cons_of_mem c hx))]

theorem splitSegs_litAppend (lt : List Char) :
    splitSegs (lt.map LikeTok.lit ++ [LikeTok.percent])
      = [lt.map LikeTok.lit, []] := by
  induction lt with
  | nil => rfl
  | cons c rest ih =>
      rw [List.map_cons, List.cons_append]
      show consHead (LikeTok.lit c) (splitSegs (rest.map LikeTok.lit ++ [LikeTok.percent]))
          = [LikeTok.lit c :: rest.map LikeTok.lit, []]
      rw [ih]
      rfl

theorem segPrefix_lit_isSome (lt : List Char) (s : List Char) :
    (segPrefix (lt.map LikeTok.lit) s).isSome = lt.isPrefixOf s := by
  induction lt generalizing s with
  | nil => cases s <;> rfl
  | cons c rest ih =>
      cases s with
      | nil => rfl
      | cons d cs =>
          show (if (c == d) = true then segPrefix (rest.map LikeTok.lit) cs
            else none).isSome = (c == d && rest.isPrefixOf cs)
          cases hcd : c == d <;> simp [ih]

theorem segSuffix_nil (s : List Char) : segSuffix [] s = true := by
  induction s with
  | nil => rfl
  | cons c cs ih =>
      show (segExact [] (c :: cs) || segSuffix [] cs) = true
      rw [ih, Bool.or_true]

theorem isPrefixOf_nil_right (lt : List Char) : lt.isPrefixOf [] = lt.isEmpty := by
  cases lt <;> rfl

theorem findSegRem_lit_isSome (lt : List Char) (s : List Char) :
    (findSegRem (lt.map LikeTok.lit) s).isSome = listContainsSub lt s := by
  induction s with
  | nil =>
      show (segPrefix (lt.map LikeTok.lit) []).isSome = lt.isEmpty
      rw [segPrefix_lit_isSome, isPrefixOf_nil_right]
  | cons c cs ih =>
      show (match segPrefix (lt.map LikeTok.lit) (c :: cs) with
        | some rem => some rem
        | none => findSegRem (lt.map LikeTok.lit) cs).isSome
        = (lt.isPrefixOf (c :: cs) || listContainsSub lt cs)
      cases hsp : segPrefix (lt.map LikeTok.lit) (c :: cs) with
      | some rem =>
          have hpre := segPrefix_lit_isSome lt (c :: cs)
          rw [hsp] at hpre
          have hpf : lt.isPrefixOf (c :: cs) = true := hpre.symm
          rw [hpf, Bool.true_or]
          rfl
      | none =>
          have hpre := segPrefix_lit_isSome lt (c :: cs)
          rw [hsp] at hpre
          have hpf : lt.isPrefixOf (c :: cs) = false := hpre.symm
          rw [hpf, Bool.false_or]
          exact ih

theorem likeMatch_wrapped (lt ls : List Char) :
    likeMatch (LikeTok.percent :: (lt.map LikeTok.lit ++ [LikeTok.percent])) ls
      = listContainsSub lt ls := by
  have hsplit : splitSegs (LikeTok.percent :: (lt.map LikeTok.lit ++ [LikeTok.percent]))
      = [[], lt.map LikeTok.lit, []] := by
    show [] :: splitSegs (lt.map LikeTok.lit ++ [LikeTok.percent]) = _
    rw [splitSegs_litAppend]
  unfold likeMatch
  rw [hsplit]
  show (match findSegRem (lt.map LikeTok.lit) ls with
    | none => false
    | some rem => matchMidLast [[]] rem) = listContainsSub lt ls
  cases hrem : findSegRem (lt.map LikeTok.lit) ls with
  | none =>
      have hs := findSegRem_lit_isSome lt ls
      rw [hrem] at hs
      exact hs
  | some rem =>
      have hs := findSegRem_lit_isSome lt ls
      rw [hrem] at hs
      show segSuffix [] rem = listContainsSub lt ls
      rw [segSuffix_nil]
      exact hs

/-- For filter values free of the LIKE metacharacters, the handlers'
ILIKE pattern match is exactly case-insensitive substring containment. -/
theorem ilikeContains_clean (s pat : String)
    (h : ∀ c ∈ lowerChars pat, isMeta c = false) :
    ilikeContains s pat = listContainsSub (lowerChars pat) (lowerChars s) := by
  unfold ilikeContains
  have hfirst : likeLexer (('%' :: lowerChars pat) ++ ['%'])
      = LikeTok.percent :: ((lowerChars pat).map LikeTok.lit ++ [LikeTok.percent]) := by
    rw [List.cons_append, likeLexer.eq_def]
    simp only [likeLexer_clean_append (lowerChars pat) h]
    rfl
  rw [hfirst, likeMatch_wrapped]

theorem ilikeContains_clean_iff (s pat : String)
    (h : ∀ c ∈ lowerChars pat, isMeta c = false) :
    ilikeContains s pat = true ↔ lowerChars pat <:+: lowerChars s := by
  rw [ilikeContains_clean s pat h]
  exact listContainsSub_iff _ _

theorem filter_contains_filter_eq (L : List (Nat × Nat)) (ids : List Nat) (pid : Nat)
    (h : ids.contains pid = true) :
    (L.filter (fun pm => ids.contains pm.fst)).filter (fun pm => pm.fst == pid)
      = L.filter (fun pm => pm.fst == pid) := by
  induction L with
  | nil => rfl
  | cons pm rest ih =>
      by_cases hb : pm.fst = pid
      · have hbt : (pm.fst == pid) = true := beq_iff_eq.mpr hb
        have hc : ids.contains pm.fst = true := by rw [hb]; exact h
        simp only [List.filter_cons, hbt, hc, if_true, ih]
      · have hbf : (pm.fst == pid) = false := beq_eq_false_iff_ne.mpr hb
        cases hc : ids.contains pm.fst <;>
          simp only [List.filter_cons, hbf, hc, if_true, if_false,
            Bool.false_eq_true, ih]

theorem find?_filter_contains (M : List Media) (mids : List Nat) (mid : Nat)
    (h : mids.contains mid = true) :
    (M.filter (fun m => mids.contains m.id)).find? (fun m => m.id == mid)
      = M.find? (fun m => m.id == mid) := by
  induction M with
  | nil => rfl
  | cons m rest ih =>
      by_cases hb : m.id = mid
      · have hbt : (m.id == mid) = true := beq_iff_eq.mpr hb
        have hc : mids.contains m.id = true := by rw [hb]; exact h
        rw [List.filter_cons, if_pos hc]
        have e1 : List.find? (fun x => x.id == mid)
            (m :: rest.filter (fun x => mids.contains x.id)) = some m :=
          List.find?_cons_of_pos _ hbt
        have e2 : List.find? (fun x => x.id == mid) (m :: rest) = some m :=
          List.find?_cons_of_pos _ hbt
        rw [e1, e2]
      · have hbf : (m.id == mid) = false := beq_eq_false_iff_ne.mpr hb
        have hne : ¬ ((m.id == mid) = true) := by simp [hbf]
        by_cases hc : mids.contains m.id = true
        · rw [List.filter_cons, if_pos hc]
          have e1 : List.find? (fun x => x.id == mid)
              (m :: rest.filter (fun x => mids.contains x.id))
              = List.find? (fun x => x.id == mid)
                  (rest.filter (fun x => mids.contains x.id)) :=
            List.find?_cons_of_neg _ hne
          have e2 : List.find? (fun x => x.id == mid) (m :: rest)
              = List.find? (fun x => x.id == mid) rest :=
            List.find?_cons_of_neg _ hne
          rw [e1, e2, ih]
        · rw [List.filter_cons, if_neg hc, ih]
          have e2 : List.find? (fun x => x.id == mid) (m :: rest)
              = List.find? (fun x => x.id == mid) rest :=
            List.find?_cons_of_neg _ hne
          rw [e2]

theorem batchAssemble_eq_mediaOf (db : DB) (ids : List Nat) (pid : Nat)
    (h : ids.contains pid = true) :
    batchAssemble db ids pid = mediaOf db pid := by
  unfold batchAssemble mediaOf batchPairs batchMediaRows
  rw [filter_contains_filter_eq _ _ _ h]
  apply List.filterMap_congr
  intro pm hpm
  have hmem := List.mem_filter.mp hpm
  have hfst : pm.fst = pid := beq_iff_eq.mp hmem.2
  have hpair : pm ∈ db.postMedia.filter (fun q => ids.contains q.fst) :=
    List.mem_filter.mpr ⟨hmem.1, by rw [hfst]; exact h⟩
  have hmid : pm.snd ∈ (db.postMedia.filter (fun q => ids.contains q.fst)).map
      (fun q => q.snd) :=
    List.mem_map_of_mem _ hpair
  exact find?_filter_contains db.media _ pm.snd (List.elem_iff.mpr hmid)

theorem map_postRowOf_load (f : PostRow → List Media) (rows : List PostRow) :
    rows.map (fun r => postRowOf (loadPost r (f r))) = rows := by
  induction rows with
  | nil => rfl
  | cons a t ih => exact congrArg (List.cons a) ih

theorem preloadMedia_rows (db : DB) (rows : List PostRow) :
    (preloadMedia db rows).posts.map postRowOf = rows := by
  unfold preloadMedia
  by_cases h : rows.isEmpty = true
  · rw [if_pos h]
    simp [List.isEmpty_iff.mp h]
  · rw [if_neg h]
    simp only [List.map_map]
    exact map_postRowOf_load _ rows

theorem preloadMedia_distrib (db : DB) (rows : List PostRow) :
    ∀ p ∈ (preloadMedia db rows).posts, p.media = some (mediaOf db p.id) := by
  intro p hp
  unfold preloadMedia at hp
  by_cases h : rows.isEmpty = true
  · rw [if_pos h] at hp
    simp at hp
  · rw [if_neg h] at hp
    simp only [List.mem_map] at hp
    obtain ⟨r, hr, rfl⟩ := hp
    have hid : (rows.map (fun q => q.id)).contains r.id = true :=
      List.elem_iff.mpr (List.mem_map_of_mem _ hr)
    show some (batchAssemble db (rows.map (fun q => q.id)) r.id) = some (mediaOf db r.id)
    exact congrArg some (batchAssemble_eq_mediaOf db _ r.id hid)

theorem preloadMedia_counts (db : DB) (rows : List PostRow) :
    ((preloadMedia db rows).posts = [] → (preloadMedia db rows).assocLookups = 0) ∧
    ((preloadMedia db rows).posts ≠ [] → (preloadMedia db rows).assocLookups = 1) := by
  unfold preloadMedia
  by_cases h : rows.isEmpty = true
  · rw [if_pos h]
    exact ⟨fun _ => rfl, fun hne => absurd rfl hne⟩
  · rw [if_neg h]
    constructor
    · intro hmap
      have hnil : rows = [] := List.map_eq_nil_iff.mp hmap
      rw [hnil] at h
      exact absurd rfl h
    · intro _
      rfl

theorem getPosts_distrib (db : DB) (t a : String) :
    ∀ p ∈ (GetPosts db t a).posts, p.media = some (mediaOf db p.id) := by
  intro p hp
  exact preloadMedia_distrib db _ p hp

theorem getPosts_rows (db : DB) (t a : String) :
    (GetPosts db t a).posts.map postRowOf
      = db.posts.filter (fun p => (postsQueryWhere t a).all (fun c => c p)) :=
  preloadMedia_rows db _

theorem postsQueryWhere_iff (t a : String) (p : PostRow)
    (hmeta : ∀ c ∈ lowerChars t, isMeta c = false) :
    (postsQueryWhere t a).all (fun c => c p) = true ↔
      ((t = "" ∨ lowerChars t <:+: lowerChars p.title) ∧ (a = "" ∨ p.author = a)) := by
  by_cases ht : t = "" <;> by_cases ha : a = "" <;>
    simp [postsQueryWhere, ht, ha, ilikeContains_clean_iff p.title t hmeta]

theorem foldl_upsert_noop (now : Nat) (tbl : List Media) (refs : List Media)
    (h : ∀ m ∈ refs, (tbl.find? (fun x => x.id == m.id)).isSome = true) :
    refs.foldl (upsertMediaRef now) tbl = tbl := by
  induction refs with
  | nil => rfl
  | cons m rest ih =>
      have h1 : upsertMediaRef now tbl m = tbl := by
        unfold upsertMediaRef
        rw [if_pos (h m (List.mem_cons_self m rest))]
      rw [List.foldl_cons, h1]
      exact ih (fun x hx => h x (List.mem_cons_of_mem m hx))

/-! ### Claim theorems -/

/-- The empty stored state, used by concrete witnesses. -/
def db0 : DB :=
  { pages := [], posts := [], media := [], postMedia := [],
    pageSeq := 0, postSeq := 0, mediaSeq := 0 }

/-- C1, counterexample: the claim that every exit path out of the
transactional block ends with a commit or a rollback AND that every
failure after the transaction opened triggers a rollback before the error
is returned is false on the code: when the commit call itself fails, the
handler returns the error without issuing any rollback. -/
theorem c1_counterexample :
    ¬ ∀ (w : WriteOutcome) (c : CommitOutcome),
        ((runTxBlock w c).rollbackIssued = true ∨ (runTxBlock w c).commitIssued = true) ∧
        ((runTxBlock w c).failureExit = true → (runTxBlock w c).rollbackIssued = true) := by
  intro hall
  have h := (hall .ok .storageErr).2 rfl
  exact absurd h (by decide)

/-- C1, amended: every exit path out of the transactional block ends the
transaction — a storage error during the write and a panic both trigger an
explicit rollback before control leaves the block, and every other path
reaches the commit call; no path leaves the transaction open. However a
failure of the commit call itself is returned without an explicit
rollback (the failed commit attempt, not a rollback, ends that
transaction), so only failures before the commit trigger a rollback. -/
theorem c1_txBlockExits (w : WriteOutcome) (c : CommitOutcome) :
    ((runTxBlock w c).rollbackIssued = true ∨ (runTxBlock w c).commitIssued = true) ∧
    (w = .fault → (runTxBlock w c).rollbackIssued = true) ∧
    ((runTxBlock w c).failureExit = true → (runTxBlock w c).commitIssued = false →
      (runTxBlock w c).rollbackIssued = true) := by
  cases w <;> cases c <;> decide

/-- Witness for C1 at a concrete failing write: the storage-error exit
issues the rollback. -/
theorem c1_witness :
    (runTxBlock WriteOutcome.storageErr CommitOutcome.ok).rollbackIssued = true :=
  (c1_txBlockExits WriteOutcome.storageErr CommitOutcome.ok).2.2 rfl rfl

/-- C3: every Create call whose payload misses a required field (title or
content for Page and Post, url or type for Media) returns a validation
error, opens no transaction, and leaves the stored state unchanged. -/
theorem c3_createValidation (db : DB) (now : Nat) (pg : PagePayload) (po : PostPayload)
    (me : MediaPayload)
    (hpg : pg.title = "" ∨ pg.content = "")
    (hpo : po.title = "" ∨ po.content = "")
    (hme : me.url = "" ∨ me.type = "") :
    (isValidationRes (CreatePage db now pg).res = true
      ∧ (CreatePage db now pg).db = db ∧ (CreatePage db now pg).tx = []) ∧
    (isValidationRes (CreatePost db now po).res = true
      ∧ (CreatePost db now po).db = db ∧ (CreatePost db now po).tx = []) ∧
    (isValidationRes (CreateMedia db now me).res = true
      ∧ (CreateMedia db now me).db = db ∧ (CreateMedia db now me).tx = []) := by
  refine ⟨?_, ?_, ?_⟩
  · rcases hpg with h | h
    · simp [CreatePage, h, isValidationRes]
    · by_cases ht : pg.title = ""
      · simp [CreatePage, ht, isValidationRes]
      · simp [CreatePage, ht, h, isValidationRes]
  · rcases hpo with h | h
    · simp [CreatePost, h, isValidationRes]
    · by_cases ht : po.title = ""
      · simp [CreatePost, ht, isValidationRes]
      · simp [CreatePost, ht, h, isValidationRes]
  · rcases hme with h | h
    · simp [CreateMedia, h, isValidationRes]
    · by_cases hu : me.url = ""
      · simp [CreateMedia, hu, isValidationRes]
      · simp [CreateMedia, hu, h, isValidationRes]

/-- Witness for C3 on concrete invalid payloads against the empty store. -/
theorem c3_witness :
    (CreatePage db0 0 { title := "", content := "x" }).db = db0 ∧
    isValidationRes (CreateMedia db0 0 { url := "", type := "image" }).res = true := by
  have h := c3_createValidation db0 0 { title := "", content := "x" }
    { title := "", content := "y", author := "", media := [] }
    { url := "", type := "image" } (Or.inl rfl) (Or.inl rfl) (Or.inl rfl)
  exact ⟨h.1.2.1, h.2.2.1⟩

/-- C4: every Update or Delete call whose identifier has no matching row
returns a not-found error, opens no transaction, and leaves every table of
the stored state exactly as before the call. The source has five such
handlers (there is no UpdateMedia handler). -/
theorem c4_notFound (db : DB) (id now : Nat) (pg : PagePayload) (po : PostPayload)
    (h1 : db.pages.find? (fun q => q.id == id) = none)
    (h2 : db.posts.find? (fun r => r.id == id) = none)
    (h3 : db.media.find? (fun m => m.id == id) = none) :
    UpdatePage db id pg now = ⟨.error (.notFound "Page not found"), db, []⟩ ∧
    DeletePage db id = ⟨.error (.notFound "Page not found"), db, []⟩ ∧
    UpdatePost db id po now = ⟨.error (.notFound "Post not found"), db, []⟩ ∧
    DeletePost db id = ⟨.error (.notFound "Post not found"), db, []⟩ ∧
    DeleteMedia db id = ⟨.error (.notFound "Media not found"), db, []⟩ := by
  refine ⟨?_, ?_, ?_, ?_, ?_⟩
  · simp [UpdatePage, h1]
  · simp [DeletePage, h1]
  · simp [UpdatePost, h2]
  · simp [DeletePost, h2]
  · simp [DeleteMedia, h3]

/-- Witness for C4: identifier 1 has no row in the empty store. -/
theorem c4_witness :
    UpdatePage db0 1 { title := "t", content := "c" } 0
      = ⟨.error (.notFound "Page not found"), db0, []⟩ :=
  (c4_notFound db0 1 0 { title := "t", content := "c" }
    { title := "t", content := "c", author := "", media := [] } rfl rfl rfl).1

/-- Stored state for the C2 theorems: one page and one post, both id 1,
last updated at time 0. -/
def c2Db : DB :=
  { pages := [{ id := 1, title := "Old", content := "OldC", createdAt := 0, updatedAt := 0 }],
    posts := [{ id := 1, title := "P", content := "PC", author := "A",
                createdAt := 0, updatedAt := 0 }],
    media := [], postMedia := [], pageSeq := 1, postSeq := 1, mediaSeq := 0 }

/-- C2, counterexample: updating the existing post 1 with the partial
payload carrying only a title is claimed to return the merged entity with
the old content retained; the code instead rejects the payload with a
validation error (the binding required tag on content fails on the empty
value), opens no transaction and changes nothing, so no merged entity is
returned and the claim fails at this input. -/
theorem c2_counterexample :
    (UpdatePost c2Db 1 { title := "X", content := "", author := "", media := [] } 5).res
      = .error (.validation "binding for required fields failed") ∧
    (UpdatePost c2Db 1 { title := "X", content := "", author := "", media := [] } 5).res
      ≠ .ok (mergePost
        { id := 1, title := "P", content := "PC", author := "A",
          createdAt := 0, updatedAt := 0 }
        { title := "X", content := "", author := "", media := [] } 5) ∧
    (UpdatePost c2Db 1 { title := "X", content := "", author := "", media := [] } 5).tx
      = [] ∧
    (UpdatePost c2Db 1 { title := "X", content := "", author := "", media := [] } 5).db
      = c2Db := by
  refine ⟨rfl, ?_, rfl, rfl⟩
  intro h
  cases h

/-- C2, amended: on an Update of an existing Page or Post, a payload whose
title or content is omitted or empty is rejected with a validation error
before any merge or transaction, leaving the stored state unchanged (the
binding required tags defeat omitted-field retention for those two
fields); for a payload with non-empty title and content, both overwrite,
the Post author is overwritten exactly when the incoming author is
non-empty and retained otherwise, the returned entity is the merged
entity persisted in place with id and created_at unchanged, and its
updated_at is refreshed strictly above the pre-update value. -/
theorem c2_updateMerge (db : DB) (id now : Nat) (pg : PagePayload) (po : PostPayload)
    (q : Page) (r : PostRow)
    (hq : db.pages.find? (fun x => x.id == id) = some q)
    (hr : db.posts.find? (fun x => x.id == id) = some r)
    (hqc : q.updatedAt < now) (hrc : r.updatedAt < now) :
    ((pg.title = "" ∨ pg.content = "") →
      isValidationRes (UpdatePage db id pg now).res = true ∧
      (UpdatePage db id pg now).db = db ∧ (UpdatePage db id pg now).tx = []) ∧
    ((po.title = "" ∨ po.content = "") →
      isValidationRes (UpdatePost db id po now).res = true ∧
      (UpdatePost db id po now).db = db ∧ (UpdatePost db id po now).tx = []) ∧
    (pg.title ≠ "" → pg.content ≠ "" →
      ((UpdatePage db id pg now).res = .ok (mergePage q pg now) ∧
        (mergePage q pg now).title = pg.title ∧
        (mergePage q pg now).content = pg.content ∧
        (mergePage q pg now).id = q.id ∧
        (mergePage q pg now).createdAt = q.createdAt ∧
        q.updatedAt < (mergePage q pg now).updatedAt ∧
        (UpdatePage db id pg now).db.pages
          = db.pages.map (fun x => if x.id == q.id then mergePage q pg now else x))) ∧
    (po.title ≠ "" → po.content ≠ "" →
      ((UpdatePost db id po now).res = .ok (mergePost r po now) ∧
        (mergePost r po now).title = po.title ∧
        (mergePost r po now).content = po.content ∧
        (mergePost r po now).author = (if po.author = "" then r.author else po.author) ∧
        (mergePost r po now).id = r.id ∧
        (mergePost r po now).createdAt = r.createdAt ∧
        r.updatedAt < (mergePost r po now).updatedAt ∧
        (UpdatePost db id po now).db.posts
          = db.posts.map (fun x => if x.id == r.id then mergePost r po now else x))) := by
  refine ⟨?_, ?_, ?_, ?_⟩
  · rintro (h | h) <;> simp [UpdatePage, hq, h, isValidationRes]
  · rintro (h | h) <;> simp [UpdatePost, hr, h, isValidationRes]
  · intro ht hc
    have htb : (pg.title == "") = false := beq_eq_false_iff_ne.mpr ht
    have hcb : (pg.content == "") = false := beq_eq_false_iff_ne.mpr hc
    refine ⟨?_, ?_, ?_, rfl, rfl, hqc, ?_⟩
    · simp [UpdatePage, hq, htb, hcb]
    · unfold mergePage
      simp [htb]
    · unfold mergePage
      simp [hcb]
    · simp [UpdatePage, hq, htb, hcb]
  · intro ht hc
    have htb : (po.title == "") = false := beq_eq_false_iff_ne.mpr ht
    have hcb : (po.content == "") = false := beq_eq_false_iff_ne.mpr hc
    refine ⟨?_, ?_, ?_, ?_, rfl, rfl, hrc, ?_⟩
    · simp [UpdatePost, hr, htb, hcb]
    · unfold mergePost
      simp [htb]
    · unfold mergePost
      simp [hcb]
    · unfold mergePost
      by_cases h : po.author = "" <;> simp [h]
    · simp [UpdatePost, hr, htb, hcb]

/-- Witness for C2: the partial post payload carrying a title but no
content is rejected with a validation error and an untouched store, while
a complete payload with an empty author overwrites title and content,
retains the old author, and gets updated_at 5. -/
theorem c2_witness :
    isValidationRes
      (UpdatePost c2Db 1 { title := "X", content := "", author := "", media := [] } 5).res
        = true ∧
    (UpdatePost c2Db 1 { title := "T2", content := "C2", author := "", media := [] } 5).res
      = .ok { id := 1, title := "T2", content := "C2", author := "A",
              createdAt := 0, updatedAt := 5 } := by
  have ha := c2_updateMerge c2Db 1 5 { title := "X", content := "Y" }
    { title := "X", content := "", author := "", media := [] }
    { id := 1, title := "Old", content := "OldC", createdAt := 0, updatedAt := 0 }
    { id := 1, title := "P", content := "PC", author := "A", createdAt := 0, updatedAt := 0 }
    rfl rfl (by decide) (by decide)
  have hb := c2_updateMerge c2Db 1 5 { title := "X", content := "Y" }
    { title := "T2", content := "C2", author := "", media := [] }
    { id := 1, title := "Old", content := "OldC", createdAt := 0, updatedAt := 0 }
    { id := 1, title := "P", content := "PC", author := "A", createdAt := 0, updatedAt := 0 }
    rfl rfl (by decide) (by decide)
  exact ⟨(ha.2.1 (Or.inr rfl)).1, (hb.2.2.2 (by decide) (by decide)).1⟩

/-- C5: listing posts resolves the media relationship with exactly one
join-table lookup keyed by the set of returned post identifiers when the
batch is non-empty, zero lookups for an empty batch, and each returned
post carries exactly its own associated media rows. -/
theorem c5_batchLoad (db : DB) (t a : String) :
    ((GetPosts db t a).posts = [] → (GetPosts db t a).assocLookups = 0) ∧
    ((GetPosts db t a).posts ≠ [] → (GetPosts db t a).assocLookups = 1) ∧
    (∀ p ∈ (GetPosts db t a).posts, p.media = some (mediaOf db p.id)) :=
  ⟨(preloadMedia_counts db _).1, (preloadMedia_counts db _).2, getPosts_distrib db t a⟩

/-- Stored state for the C5 witness: one post. -/
def c5Db : DB :=
  { pages := [],
    posts := [{ id := 1, title := "T", content := "C", author := "",
                createdAt := 0, updatedAt := 0 }],
    media := [], postMedia := [], pageSeq := 0, postSeq := 1, mediaSeq := 0 }

/-- Witness for C5: a one-post unfiltered listing issues exactly one
association lookup. -/
theorem c5_witness : (GetPosts c5Db "" "").assocLookups = 1 :=
  (c5_batchLoad c5Db "" "").2.1 (by decide)

/-- Stored state for the C6 theorems: two posts, one matching the title
filter "test", neither containing a literal percent sign. -/
def c6Db : DB :=
  { pages := [],
    posts := [{ id := 1, title := "Hello Test World", content := "c", author := "Ann",
                createdAt := 0, updatedAt := 0 },
              { id := 2, title := "Other", content := "c", author := "Bob",
                createdAt := 0, updatedAt := 0 }],
    media := [], postMedia := [], pageSeq := 0, postSeq := 2, mediaSeq := 0 }

/-- C6, counterexample: the claim that a title filter selects exactly the
posts whose title contains the filter value is false when the filter value
carries a LIKE metacharacter — the filter value "%" is passed straight
into the ILIKE pattern, where it is a live wildcard, so GetPosts returns
the post titled "Other" although "Other" does not contain the character
'%'. -/
theorem c6_counterexample :
    ¬ ∀ (db : DB) (t a : String) (p : PostRow),
        p ∈ (GetPosts db t a).posts.map postRowOf ↔
          (p ∈ db.posts ∧ (t = "" ∨ lowerChars t <:+: lowerChars p.title)
            ∧ (a = "" ∨ p.author = a)) := by
  intro hall
  have h := (hall c6Db "%" ""
    { id := 2, title := "Other", content := "c", author := "Bob",
      createdAt := 0, updatedAt := 0 }).mp (by decide)
  rcases h.2.1 with h1 | h1
  · exact absurd h1 (by decide)
  · exact absurd h1 (by decide)

/-- C6, amended: the title filter matches titles against the ILIKE
pattern built by wrapping the raw filter value in percent signs, in which
an unescaped percent sign or underscore inside the value acts as a LIKE
wildcard; for a filter value free of the LIKE metacharacters this is
exactly case-insensitive substring containment, and then a row is
returned exactly when it is a stored post whose title contains the filter
value case-insensitively (or the title filter is empty or absent) and
whose author equals the author filter exactly (or the author filter is
empty or absent); the filters combine by conjunction and the empty string
behaves as an absent filter. -/
theorem c6_postsFilter (db : DB) (t a : String) (p : PostRow)
    (hmeta : ∀ c ∈ lowerChars t, isMeta c = false) :
    p ∈ (GetPosts db t a).posts.map postRowOf ↔
      (p ∈ db.posts ∧ (t = "" ∨ lowerChars t <:+: lowerChars p.title)
        ∧ (a = "" ∨ p.author = a)) := by
  rw [getPosts_rows, List.mem_filter, postsQueryWhere_iff t a p hmeta]

/-- Witness for C6: the metacharacter-free, case-insensitive title filter
"test" selects the post titled "Hello Test World". -/
theorem c6_witness :
    ({ id := 1, title := "Hello Test World", content := "c", author := "Ann",
       createdAt := 0, updatedAt := 0 } : PostRow)
      ∈ (GetPosts c6Db "test" "").posts.map postRowOf :=
  (c6_postsFilter c6Db "test" "" _ (by decide)).mpr
    ⟨by decide, Or.inr (by decide), Or.inl rfl⟩

/-- C7: creating a valid Post whose payload references only existing Media
identifiers associates the new post with exactly the referenced
identifiers — the media table itself gains no row and loses no row and no
existing row is modified. The freshness hypothesis states that the
engine-assigned id has no pre-existing join rows, which the id sequence
guarantees. -/
theorem c7_createPostAssoc (db : DB) (now : Nat) (po : PostPayload)
    (ht : po.title ≠ "") (hc : po.content ≠ "")
    (hex : ∀ m ∈ po.media, (db.media.find? (fun x => x.id == m.id)).isSome = true)
    (hfresh : ∀ pr ∈ db.postMedia, pr.fst ≠ db.postSeq + 1) :
    (CreatePost db now po).db.media = db.media ∧
    (∀ mid : Nat,
      (db.postSeq + 1, mid) ∈ (CreatePost db now po).db.postMedia
        ↔ mid ∈ po.media.map (fun m => m.id)) := by
  have htb : (po.title == "") = false := beq_eq_false_iff_ne.mpr ht
  have hcb : (po.content == "") = false := beq_eq_false_iff_ne.mpr hc
  constructor
  · have hmedia : (CreatePost db now po).db.media
        = po.media.foldl (upsertMediaRef now) db.media := by
      simp [CreatePost, htb, hcb]
    rw [hmedia]
    exact foldl_upsert_noop now db.media po.media hex
  · intro mid
    have hpm : (CreatePost db now po).db.postMedia
        = db.postMedia ++ po.media.map (fun m => (db.postSeq + 1, m.id)) := by
      simp [CreatePost, htb, hcb]
    rw [hpm]
    simp only [List.mem_append, List.mem_map]
    constructor
    · rintro (hold | ⟨m, hm, heq⟩)
      · exact absurd rfl (hfresh _ hold)
      · exact ⟨m, hm, (Prod.mk.injEq _ _ _ _ ▸ heq).2⟩
    · rintro ⟨m, hm, hmid⟩
      exact Or.inr ⟨m, hm, by rw [hmid]⟩

/-- Stored state for the C7 witness: one media row with id 7. -/
def c7Db : DB :=
  { pages := [], posts := [],
    media := [{ id := 7, url := "u", type := "image", createdAt := 0, updatedAt := 0 }],
    postMedia := [], pageSeq := 0, postSeq := 0, mediaSeq := 7 }

/-- Payload for the C7 witness: a valid post referencing media 7 by id. -/
def c7Po : PostPayload :=
  { title := "T", content := "C", author := "A",
    media := [{ id := 7, url := "", type := "", createdAt := 0, updatedAt := 0 }] }

/-- Witness for C7: creating the post leaves the media table unchanged and
adds the association (1, 7). -/
theorem c7_witness :
    (CreatePost c7Db 3 c7Po).db.media = c7Db.media ∧
    (1, 7) ∈ (CreatePost c7Db 3 c7Po).db.postMedia := by
  have h := c7_createPostAssoc c7Db 3 c7Po (by decide) (by decide) (by decide)
    (by intro pr hpr; cases hpr)
  exact ⟨h.1, (h.2 7).mpr (by decide)⟩

/-- Payload exercising the C8 gap: a valid post referencing media id 999,
which has no row. -/
def c8Po : PostPayload :=
  { title := "T", content := "C", author := "",
    media := [{ id := 999, url := "", type := "", createdAt := 0, updatedAt := 0 }] }

/-- C8, violation exhibited: creating a post that references a
non-existent Media identifier commits and persists a Media row with empty
url and type (the association save inserts the missing reference as
given), so the claimed invariant that every persisted Media has non-empty
url and type does not hold in every reachable state. -/
theorem c8_blankMediaRow :
    (CreatePost db0 5 c8Po).tx = [TxEvent.beginTx, TxEvent.commitTx] ∧
    ∃ m ∈ (CreatePost db0 5 c8Po).db.media, m.url = "" ∧ m.type = "" := by
  decide

/-- C9: a post with no join rows is returned with the empty media slice,
never a nil slice, both by GetPost and by GetPosts. -/
theorem c9_emptyMedia (db : DB) (id : Nat) (r : PostRow) (t a : String)
    (hr : db.posts.find? (fun x => x.id == id) = some r)
    (hnone : db.postMedia.filter (fun pm => pm.fst == r.id) = []) :
    (GetPost db id = .ok (loadPost r []) ∧ (loadPost r []).media = some []) ∧
    (∀ p ∈ (GetPosts db t a).posts,
      db.postMedia.filter (fun pm => pm.fst == p.id) = [] → p.media = some []) := by
  constructor
  · constructor
    · unfold GetPost
      rw [hr]
      have hm : mediaOf db r.id = [] := by
        unfold mediaOf
        rw [hnone]
        rfl
      show Except.ok (loadPost r (mediaOf db r.id)) = Except.ok (loadPost r [])
      rw [hm]
    · rfl
  · intro p hp hpnone
    have hdist := getPosts_distrib db t a p hp
    have hm : mediaOf db p.id = [] := by
      unfold mediaOf
      rw [hpnone]
      rfl
    rw [hdist, hm]

/-- Stored state for the C9 witness: one post, no associations. -/
def c9Db : DB :=
  { pages := [],
    posts := [{ id := 1, title := "A", content := "B", author := "",
                createdAt := 0, updatedAt := 0 }],
    media := [], postMedia := [], pageSeq := 0, postSeq := 1, mediaSeq := 0 }

/-- Witness for C9: the concrete lookup returns the post with media slice
some [] (an empty array, not null). -/
theorem c9_witness :
    GetPost c9Db 1 = .ok (loadPost
      { id := 1, title := "A", content := "B", author := "",
        createdAt := 0, updatedAt := 0 } []) :=
  ((c9_emptyMedia c9Db 1
    { id := 1, title := "A", content := "B", author := "",
      createdAt := 0, updatedAt := 0 } "" "" rfl rfl).1).1

/-- Stored state for C10: one page. -/
def c10Db : DB :=
  { pages := [{ id := 1, title := "First Page", content := "Content 1",
                createdAt := 0, updatedAt := 0 }],
    posts := [], media := [], postMedia := [],
    pageSeq := 1, postSeq := 0, mediaSeq := 0 }

/-- C10, violation exhibited: a non-empty author query parameter IS built
into the pages predicate even though the pages table has no author column,
so the query fails with a storage error; with the author parameter absent
the behaviour is as claimed — no filters return every page, and a title
filter selects by case-insensitive substring without error. -/
theorem c10_authorFilterStorageError :
    GetPages c10Db "" "Test Author"
      = .error (.storage "undefined column in WHERE clause") ∧
    GetPages c10Db "" "" = .ok c10Db.pages ∧
    GetPages c10Db "first" "" = .ok c10Db.pages := by
  refine ⟨rfl, rfl, rfl⟩

end Cms
